import Mathlib

/-!
# Verification of the `stashpass` persistent password store

Shallow embedding of `src/store/mod.rs` and `src/password/mod.rs`.

Modelling choices, each tied to a source construct:

* `PasswordEntry` embeds the Rust struct of the same name (three `String`
  fields, structural equality via `derive(PartialEq)`).
* `serde_json::Map<String, Value>` is (by default feature set) a
  `BTreeMap`: keys are unique and iterated in sorted order.  We embed the
  persisted JSON object as a strictly-sorted association list
  (`Jmap`), with `mapInsert` the BTreeMap insert (overwrite on equal key).
  Since the serialized bytes of a `BTreeMap` are a function of its content
  (sorted iteration), "the file changed byte-for-byte" is equivalent to
  "the parsed map or parse status changed", which is what `FileData`
  records.
* The backing file's raw content is `FileData`: `emptyFile` is the
  zero-byte file produced by `fs::File::create` (it does NOT parse as
  JSON), `garbage` is any other unparsable content, `jsonMap m` is a file
  whose content parses as the JSON object `m`.
* `std::collections::HashMap<String, PasswordEntry>` (field `passwords`)
  is embedded with the same sorted association list machinery: lookup and
  insert semantics coincide extensionally with the Rust map.  Iteration
  order of the Rust `HashMap` is a function of the key set only, which is
  all the listing claims need.
* Rust panics (`unwrap`/`expect`) are embedded as `Except.error`; the
  `Result::Err` branches of the Rust functions carry their literal
  `&'static str` messages.
* The only genuine I/O failure point is `writer.write_all` in
  `save_entry` / `update_entry`; it is embedded as a boolean `writeOk`
  parameter.  A failed write happens after `truncate(true)`, so the file
  is left truncated (`emptyFile`).
-/

/-- Rust `PasswordEntry { service, username, password }`. -/
structure PasswordEntry where
  service : String
  username : String
  password : String
deriving DecidableEq

/-- The value stored against a service key in the JSON file:
`{"username": u, "password": p}`. -/
abbrev JVal := String × String

/-- A parsed JSON object `Map<String, Value>` of well-formed entries
(a `BTreeMap`, kept strictly sorted by key). -/
abbrev Jmap := List (String × JVal)

/-- The in-memory `HashMap<String, PasswordEntry>`. -/
abbrev Index := List (String × PasswordEntry)

/-- Map lookup (first match; on sorted-unique lists, the map lookup). -/
def mapLookup {α : Type} : List (String × α) → String → Option α
  | [], _ => none
  | kv :: t, k => if k = kv.1 then some kv.2 else mapLookup t k

/-- BTreeMap-style insert into a sorted association list: overwrite on an
equal key, otherwise keep strict key order. -/
def mapInsert {α : Type} (k : String) (v : α) : List (String × α) → List (String × α)
  | [] => [(k, v)]
  | kv :: t =>
    if k < kv.1 then (k, v) :: kv :: t
    else if k = kv.1 then (k, v) :: t
    else kv :: mapInsert k v t

/-- Strictly sorted by key: the representation invariant of both embedded
maps. -/
abbrev SortedMap {α : Type} (l : List (String × α)) : Prop :=
  l.Pairwise (fun a b => a.1 < b.1)

/-- Every index key equals its entry's `service` field (maintained by the
code: `add` inserts under key `entry.service.clone()`, `load` constructs
the entry from the JSON key). -/
def KeysMatch (l : Index) : Prop :=
  ∀ kv ∈ l, kv.2.service = kv.1

/-- Raw content of the backing file. -/
inductive FileData where
  /-- zero-byte file, as created by `fs::File::create`; not valid JSON -/
  | emptyFile : FileData
  /-- any other content that does not parse as a JSON object of entries -/
  | garbage : FileData
  /-- content that parses as the JSON object `m` -/
  | jsonMap (m : Jmap) : FileData
deriving DecidableEq

/-- `serde_json::from_reader`: succeeds exactly on parsable content. -/
def parseFile : FileData → Option Jmap
  | FileData.jsonMap m => some m
  | _ => none

/-- The `match { Ok(json) => json, Err(_) => Map::new() }` pattern of
`save_entry` and `update_entry`. -/
def parseOrEmpty (f : FileData) : Jmap :=
  (parseFile f).getD []

/-- Rust `PasswordStore` (the `file_path` field is fixed for the life of
the store; the file it denotes is threaded separately as `FileData`). -/
structure PasswordStore where
  passwords : Index
deriving DecidableEq

namespace PasswordStore

/-- `fn add`: `self.passwords.insert(entry.service.clone(), entry)`. -/
def add (st : PasswordStore) (e : PasswordEntry) : PasswordStore :=
  ⟨mapInsert e.service e st.passwords⟩

/-- `pub fn get`: `self.passwords.get(service)`. -/
def get (st : PasswordStore) (s : String) : Option PasswordEntry :=
  mapLookup st.passwords s

/-- `pub fn check_for_duplicate_service_entry`: scans the stored entries'
`service` fields. -/
def check_for_duplicate_service_entry (st : PasswordStore) (s : String) : Bool :=
  st.passwords.any (fun kv => kv.2.service == s)

/-- One line of `list_all` output:
`println!("Service: {}, Username: {}", service, entry.username)`. -/
def lineOf (s u : String) : String :=
  "Service: " ++ s ++ ", Username: " ++ u ++ "\n"

/-- `pub fn list_all`: prints service and username of every entry; the
whole printed output as one string. -/
def list_all (st : PasswordStore) : String :=
  st.passwords.foldr (fun kv acc => lineOf kv.1 kv.2.username ++ acc) ""

/-- `pub fn load`: parses the file (`.unwrap()` panics on failure,
embedded as `Except.error`) and `add`s an entry per JSON key. -/
def load (st : PasswordStore) (f : FileData) : Except String PasswordStore :=
  match parseFile f with
  | none => Except.error "panic: called unwrap on an Err value while parsing the store file"
  | some m =>
    Except.ok (m.foldl (fun acc kv => acc.add ⟨kv.1, kv.2.1, kv.2.2⟩) st)

/-- `pub fn new`: if the path exists, `load` its content (which can
panic); otherwise create the (zero-byte) file.  `none` is a nonexistent
path.  The Rust `Result::Err` branch is dead code: failures at this stage
are panics. -/
def new (file : Option FileData) : Except String (PasswordStore × FileData) :=
  match file with
  | some f => (load ⟨[]⟩ f).map (fun st => (st, f))
  | none => Except.ok (⟨[]⟩, FileData.emptyFile)

/-- `fn save_entry`: re-read the file (malformed → empty map), insert the
new entry, truncate and rewrite.  Returns the new file content and the
Rust result. -/
def save_entry (writeOk : Bool) (f : FileData) (e : PasswordEntry) :
    FileData × Except String PasswordEntry :=
  let m := parseOrEmpty f
  let m2 := mapInsert e.service (e.username, e.password) m
  if writeOk then (FileData.jsonMap m2, Except.ok e)
  else (FileData.emptyFile, Except.error "Failed to save entry to file")

/-- `pub fn add_and_save_entry`: add to the in-memory store first, then
`save_entry`; the index is kept even when the save fails. -/
def add_and_save_entry (writeOk : Bool) (st : PasswordStore) (f : FileData)
    (e : PasswordEntry) : (PasswordStore × FileData) × Except String String :=
  let st2 := st.add e
  let sr := save_entry writeOk f e
  match sr.2 with
  | Except.ok _ => ((st2, sr.1), Except.ok "Password entry was successfully saved to file")
  | Except.error err => ((st2, sr.1), Except.error err)

/-- `pub fn update_entry`: re-read the file (malformed → empty map),
unconditionally insert the entry, truncate and rewrite.  The in-memory
`passwords` map is not touched. -/
def update_entry (writeOk : Bool) (st : PasswordStore) (f : FileData)
    (e : PasswordEntry) : (PasswordStore × FileData) × Except String Unit :=
  let m := parseOrEmpty f
  let m2 := mapInsert e.service (e.username, e.password) m
  if writeOk then ((st, FileData.jsonMap m2), Except.ok ())
  else ((st, FileData.emptyFile), Except.error "Failed to update entry in file")

end PasswordStore

/-- A mutating store operation, with the fate of its disk write. -/
inductive Op where
  | addSave (writeOk : Bool) (e : PasswordEntry) : Op
  | update (writeOk : Bool) (e : PasswordEntry) : Op

/-- Effect of one operation on (store, file). -/
def runOp (sf : PasswordStore × FileData) : Op → PasswordStore × FileData
  | Op.addSave wf e => (PasswordStore.add_and_save_entry wf sf.1 sf.2 e).1
  | Op.update wf e => (PasswordStore.update_entry wf sf.1 sf.2 e).1

/-- Effect of a sequence of operations. -/
def runOps (sf : PasswordStore × FileData) (ops : List Op) : PasswordStore × FileData :=
  ops.foldl runOp sf

/-- The index an in-memory load of the JSON map `m` produces: each JSON
record `(k, (u, p))` becomes the entry `⟨k, u, p⟩` keyed by `k`. -/
def decorate (m : Jmap) : Index :=
  m.map (fun kv => (kv.1, ⟨kv.1, kv.2.1, kv.2.2⟩))

/-- The spec's consistency relation between the in-memory index and the
persisted form: every index entry is represented in the (freshly parsed)
file with the same three fields, and every file record is in the index. -/
def Consistent (st : PasswordStore) (f : FileData) : Prop :=
  (∀ kv ∈ st.passwords,
      kv.2.service = kv.1 ∧
      mapLookup (parseOrEmpty f) kv.1 = some (kv.2.username, kv.2.password)) ∧
  (∀ kv ∈ parseOrEmpty f,
      mapLookup st.passwords kv.1 = some ⟨kv.1, kv.2.1, kv.2.2⟩)

instance (st : PasswordStore) (f : FileData) : Decidable (Consistent st f) := by
  unfold Consistent
  exact instDecidableAnd

/-! ## Association-list map lemmas -/

theorem mapInsert_cons_lt {α : Type} (k : String) (v : α) (kv : String × α)
    (t : List (String × α)) (h : k < kv.1) :
    mapInsert k v (kv :: t) = (k, v) :: kv :: t := by
  rw [mapInsert, if_pos h]

theorem mapInsert_cons_eq {α : Type} (k : String) (v : α) (kv : String × α)
    (t : List (String × α)) (h1 : ¬ k < kv.1) (h : k = kv.1) :
    mapInsert k v (kv :: t) = (k, v) :: t := by
  rw [mapInsert, if_neg h1, if_pos h]

theorem mapInsert_cons_gt {α : Type} (k : String) (v : α) (kv : String × α)
    (t : List (String × α)) (h1 : ¬ k < kv.1) (h : ¬ k = kv.1) :
    mapInsert k v (kv :: t) = kv :: mapInsert k v t := by
  rw [mapInsert, if_neg h1, if_neg h]

theorem mem_mapInsert {α : Type} {x : String × α} {k : String} {v : α} :
    ∀ {l : List (String × α)}, x ∈ mapInsert k v l → x = (k, v) ∨ x ∈ l := by
  intro l
  induction l with
  | nil =>
    intro h
    simpa [mapInsert] using h
  | cons kv t ih =>
    intro h
    by_cases h1 : k < kv.1
    · simp only [mapInsert, if_pos h1, List.mem_cons] at h
      rcases h with h | h | h
      · exact Or.inl h
      · exact Or.inr (List.mem_cons.mpr (Or.inl h))
      · exact Or.inr (List.mem_cons.mpr (Or.inr h))
    · by_cases h2 : k = kv.1
      · simp only [mapInsert, if_neg h1, if_pos h2, List.mem_cons] at h
        rcases h with h | h
        · exact Or.inl h
        · exact Or.inr (List.mem_cons.mpr (Or.inr h))
      · simp only [mapInsert, if_neg h1, if_neg h2, List.mem_cons] at h
        rcases h with h | h
        · exact Or.inr (List.mem_cons.mpr (Or.inl h))
        · rcases ih h with h | h
          · exact Or.inl h
          · exact Or.inr (List.mem_cons.mpr (Or.inr h))

theorem sortedMap_insert {α : Type} (k : String) (v : α) {l : List (String × α)}
    (h : SortedMap l) : SortedMap (mapInsert k v l) := by
  induction l with
  | nil => simp [mapInsert, SortedMap]
  | cons kv t ih =>
    rw [SortedMap, List.pairwise_cons] at h
    obtain ⟨hkv, ht⟩ := h
    rcases lt_trichotomy k kv.1 with h1 | h1 | h1
    · simp only [mapInsert, if_pos h1]
      rw [SortedMap, List.pairwise_cons]
      refine ⟨?_, List.pairwise_cons.mpr ⟨hkv, ht⟩⟩
      intro b hb
      rcases List.mem_cons.mp hb with h | h
      · rw [h]; exact h1
      · exact lt_trans h1 (hkv b h)
    · have hnlt : ¬ k < kv.1 := by rw [h1]; exact lt_irrefl kv.1
      simp only [mapInsert, if_neg hnlt, if_pos h1]
      rw [SortedMap, List.pairwise_cons]
      exact ⟨fun b hb => h1 ▸ hkv b hb, ht⟩
    · have hnlt : ¬ k < kv.1 := lt_asymm h1
      have hne : ¬ k = kv.1 := ne_of_gt h1
      simp only [mapInsert, if_neg hnlt, if_neg hne]
      rw [SortedMap, List.pairwise_cons]
      refine ⟨?_, ih ht⟩
      intro b hb
      rcases mem_mapInsert hb with h | h
      · rw [h]; exact h1
      · exact hkv b h

theorem keys_nodup_of_sorted {α : Type} {l : List (String × α)} (h : SortedMap l) :
    (l.map Prod.fst).Nodup := by
  rw [List.Nodup, List.pairwise_map]
  exact h.imp (fun h' => ne_of_lt h')

theorem mapLookup_insert_self {α : Type} (k : String) (v : α) (l : List (String × α)) :
    mapLookup (mapInsert k v l) k = some v := by
  induction l with
  | nil => simp [mapInsert, mapLookup]
  | cons kv t ih =>
    rcases lt_trichotomy k kv.1 with h1 | h1 | h1
    · rw [mapInsert_cons_lt _ _ _ _ h1]
      simp [mapLookup]
    · have hnlt : ¬ k < kv.1 := by rw [h1]; exact lt_irrefl kv.1
      rw [mapInsert_cons_eq _ _ _ _ hnlt h1]
      simp [mapLookup]
    · have hnlt : ¬ k < kv.1 := lt_asymm h1
      have hne : ¬ k = kv.1 := ne_of_gt h1
      rw [mapInsert_cons_gt _ _ _ _ hnlt hne]
      simp only [mapLookup, hne, if_false]
      exact ih

theorem mapLookup_insert_ne {α : Type} {k k' : String} (v : α) (l : List (String × α))
    (h : k' ≠ k) : mapLookup (mapInsert k v l) k' = mapLookup l k' := by
  induction l with
  | nil => simp [mapInsert, mapLookup, h]
  | cons kv t ih =>
    by_cases h1 : k < kv.1
    · rw [mapInsert_cons_lt _ _ _ _ h1]
      simp [mapLookup, h]
    · by_cases h2 : k = kv.1
      · have h' : k' ≠ kv.1 := h2 ▸ h
        rw [mapInsert_cons_eq _ _ _ _ h1 h2]
        simp [mapLookup, h, h']
      · rw [mapInsert_cons_gt _ _ _ _ h1 h2]
        by_cases h3 : k' = kv.1
        · simp [mapLookup, h3]
        · simp only [mapLookup, h3, if_false]
          exact ih

theorem mapLookup_isSome_iff {α : Type} (l : List (String × α)) (s : String) :
    (mapLookup l s).isSome = true ↔ ∃ kv ∈ l, kv.1 = s := by
  induction l with
  | nil => simp [mapLookup]
  | cons kv t ih =>
    by_cases h : s = kv.1
    · subst h
      simp [mapLookup]
    · simp only [mapLookup, if_neg h, ih, List.mem_cons]
      constructor
      · rintro ⟨x, hx, rfl⟩
        exact ⟨x, Or.inr hx, rfl⟩
      · rintro ⟨x, hx, rfl⟩
        rcases hx with rfl | hx
        · exact absurd rfl h
        · exact ⟨x, hx, rfl⟩

theorem mapLookup_of_mem_sorted {α : Type} {l : List (String × α)} {k : String} {v : α}
    (hs : SortedMap l) (hm : (k, v) ∈ l) : mapLookup l k = some v := by
  induction l with
  | nil => cases hm
  | cons kv t ih =>
    rw [SortedMap, List.pairwise_cons] at hs
    rcases List.mem_cons.mp hm with h | h
    · rw [← h]
      simp [mapLookup]
    · have hk : kv.1 < k := hs.1 (k, v) h
      have hne : ¬ k = kv.1 := ne_of_gt hk
      simp only [mapLookup, if_neg hne]
      exact ih hs.2 h

theorem mapLookup_decorate (m : Jmap) (k : String) :
    mapLookup (decorate m) k
      = (mapLookup m k).map (fun uv => (⟨k, uv.1, uv.2⟩ : PasswordEntry)) := by
  induction m with
  | nil => simp [decorate, mapLookup]
  | cons kv t ih =>
    by_cases h : k = kv.1
    · subst h
      simp [decorate, mapLookup]
    · simp only [decorate, List.map_cons, mapLookup, h, if_false]
      exact ih

theorem mapInsert_decorate (k u p : String) (m : Jmap) :
    mapInsert k (⟨k, u, p⟩ : PasswordEntry) (decorate m)
      = decorate (mapInsert k (u, p) m) := by
  induction m with
  | nil => rfl
  | cons kv t ih =>
    have hd : decorate (kv :: t)
        = (kv.1, (⟨kv.1, kv.2.1, kv.2.2⟩ : PasswordEntry)) :: decorate t := rfl
    rcases lt_trichotomy k kv.1 with h1 | h1 | h1
    · rw [hd, mapInsert_cons_lt k (⟨k, u, p⟩ : PasswordEntry)
          (kv.1, (⟨kv.1, kv.2.1, kv.2.2⟩ : PasswordEntry)) (decorate t) h1,
        mapInsert_cons_lt k (u, p) kv t h1]
      rfl
    · have hnlt : ¬ k < kv.1 := by rw [h1]; exact lt_irrefl kv.1
      rw [hd, mapInsert_cons_eq k (⟨k, u, p⟩ : PasswordEntry)
          (kv.1, (⟨kv.1, kv.2.1, kv.2.2⟩ : PasswordEntry)) (decorate t) hnlt h1,
        mapInsert_cons_eq k (u, p) kv t hnlt h1]
      rfl
    · have hnlt : ¬ k < kv.1 := lt_asymm h1
      have hne : ¬ k = kv.1 := ne_of_gt h1
      rw [hd, mapInsert_cons_gt k (⟨k, u, p⟩ : PasswordEntry)
          (kv.1, (⟨kv.1, kv.2.1, kv.2.2⟩ : PasswordEntry)) (decorate t) hnlt hne,
        mapInsert_cons_gt k (u, p) kv t hnlt hne, ih]
      rfl


/-! ## Shapes of the operation results -/

theorem add_and_save_entry_fst (wf : Bool) (st : PasswordStore) (f : FileData)
    (e : PasswordEntry) :
    (PasswordStore.add_and_save_entry wf st f e).1.1 = st.add e := by
  cases wf <;> rfl

theorem add_and_save_entry_true (st : PasswordStore) (f : FileData) (e : PasswordEntry) :
    PasswordStore.add_and_save_entry true st f e
      = ((st.add e,
          FileData.jsonMap (mapInsert e.service (e.username, e.password) (parseOrEmpty f))),
         Except.ok "Password entry was successfully saved to file") := rfl

theorem add_and_save_entry_false (st : PasswordStore) (f : FileData) (e : PasswordEntry) :
    PasswordStore.add_and_save_entry false st f e
      = ((st.add e, FileData.emptyFile), Except.error "Failed to save entry to file") := rfl

theorem update_entry_fst (wf : Bool) (st : PasswordStore) (f : FileData)
    (e : PasswordEntry) :
    (PasswordStore.update_entry wf st f e).1.1 = st := by
  cases wf <;> rfl

theorem update_entry_true (st : PasswordStore) (f : FileData) (e : PasswordEntry) :
    PasswordStore.update_entry true st f e
      = ((st,
          FileData.jsonMap (mapInsert e.service (e.username, e.password) (parseOrEmpty f))),
         Except.ok ()) := rfl

theorem runOp_update (sf : PasswordStore × FileData) (wf : Bool) (e : PasswordEntry) :
    runOp sf (Op.update wf e) = (sf.1, (PasswordStore.update_entry wf sf.1 sf.2 e).1.2) := by
  cases wf <;> rfl

theorem runOp_addSave (sf : PasswordStore × FileData) (wf : Bool) (e : PasswordEntry) :
    runOp sf (Op.addSave wf e)
      = (sf.1.add e, (PasswordStore.add_and_save_entry wf sf.1 sf.2 e).1.2) := by
  cases wf <;> rfl

theorem runOps_cons (sf : PasswordStore × FileData) (op : Op) (ops : List Op) :
    runOps sf (op :: ops) = runOps (runOp sf op) ops := rfl

/-! ## The key-matches-service invariant -/

theorem keysMatch_add {st : PasswordStore} (h : KeysMatch st.passwords)
    (e : PasswordEntry) : KeysMatch (st.add e).passwords := by
  intro kv hm
  rcases mem_mapInsert hm with h' | h'
  · rw [h']
  · exact h kv h'

theorem keysMatch_loadFoldAux :
    ∀ (m : Jmap) (st : PasswordStore), KeysMatch st.passwords →
      KeysMatch (m.foldl (fun acc kv => acc.add ⟨kv.1, kv.2.1, kv.2.2⟩) st).passwords := by
  intro m
  induction m with
  | nil => intro st h; exact h
  | cons kv t ih =>
    intro st h
    exact ih (st.add ⟨kv.1, kv.2.1, kv.2.2⟩) (keysMatch_add h _)

theorem new_ok_keysMatch {f0 : Option FileData} {st0 : PasswordStore} {fd : FileData}
    (h : PasswordStore.new f0 = Except.ok (st0, fd)) : KeysMatch st0.passwords := by
  match f0 with
  | none =>
    rw [PasswordStore.new] at h
    cases h
    intro kv hm
    cases hm
  | some f =>
    rw [PasswordStore.new, PasswordStore.load] at h
    match hp : parseFile f with
    | none => rw [hp] at h; cases h
    | some m =>
      rw [hp] at h
      simp only [Except.map] at h
      cases h
      exact keysMatch_loadFoldAux m ⟨[]⟩ (fun kv hm => by cases hm)

theorem keysMatch_runOp {sf : PasswordStore × FileData} (h : KeysMatch sf.1.passwords)
    (op : Op) : KeysMatch (runOp sf op).1.passwords := by
  cases op with
  | addSave wf e =>
    rw [runOp_addSave]
    exact keysMatch_add h e
  | update wf e =>
    rw [runOp_update]
    exact h

theorem keysMatch_runOps (ops : List Op) :
    ∀ sf : PasswordStore × FileData, KeysMatch sf.1.passwords →
      KeysMatch (runOps sf ops).1.passwords := by
  induction ops with
  | nil => intro sf h; exact h
  | cons op t ih =>
    intro sf h
    rw [runOps_cons]
    exact ih _ (keysMatch_runOp h op)

/-! ## `check_for_duplicate_service_entry` versus `get` -/

theorem check_iff_lookup (st : PasswordStore) (s : String) (h : KeysMatch st.passwords) :
    st.check_for_duplicate_service_entry s = true
      ↔ (mapLookup st.passwords s).isSome = true := by
  rw [PasswordStore.check_for_duplicate_service_entry, List.any_eq_true,
    mapLookup_isSome_iff]
  constructor
  · rintro ⟨kv, hm, hb⟩
    refine ⟨kv, hm, ?_⟩
    rw [← h kv hm]
    exact eq_of_beq hb
  · rintro ⟨kv, hm, hk⟩
    refine ⟨kv, hm, ?_⟩
    rw [beq_iff_eq, h kv hm, hk]

theorem check_add_iff (st : PasswordStore) (e : PasswordEntry) (s : String)
    (h : KeysMatch st.passwords) :
    (st.add e).check_for_duplicate_service_entry s = true
      ↔ e.service = s ∨ st.check_for_duplicate_service_entry s = true := by
  rw [check_iff_lookup _ _ (keysMatch_add h e), check_iff_lookup _ _ h]
  by_cases hs : s = e.service
  · subst hs
    simp [PasswordStore.add, mapLookup_insert_self]
  · rw [show (st.add e).passwords = mapInsert e.service e st.passwords from rfl,
      mapLookup_insert_ne _ _ hs]
    constructor
    · exact Or.inr
    · rintro (h' | h')
      · exact absurd h'.symm hs
      · exact h'

/-- `startsWithL hay needle`: `needle` is an initial segment of `hay`. -/
def startsWithL : List Char → List Char → Bool
  | _, [] => true
  | [], _ :: _ => false
  | a :: as, b :: bs => a == b && startsWithL as bs

/-- `hasSubL needle hay`: `needle` occurs contiguously in `hay`. -/
def hasSubL (needle : List Char) : List Char → Bool
  | [] => startsWithL [] needle
  | c :: t => startsWithL (c :: t) needle || hasSubL needle t

/-- `needle` occurs as a contiguous substring of `hay`. -/
def strContains (hay needle : String) : Bool :=
  hasSubL needle.data hay.data

/-! ## Consistency of index and persisted form -/

theorem consistent_of_decorate (st : PasswordStore) (f : FileData)
    (h1 : st.passwords = decorate (parseOrEmpty f))
    (h2 : SortedMap (parseOrEmpty f)) : Consistent st f := by
  constructor
  · intro kv hm
    rw [h1] at hm
    obtain ⟨x, hx, rfl⟩ := List.mem_map.mp hm
    exact ⟨rfl, mapLookup_of_mem_sorted h2 hx⟩
  · intro kv hm
    rw [h1, mapLookup_decorate, mapLookup_of_mem_sorted h2 hm]
    rfl

theorem sync_addSave (st : PasswordStore) (f : FileData) (e : PasswordEntry)
    (h1 : st.passwords = decorate (parseOrEmpty f))
    (h2 : SortedMap (parseOrEmpty f)) :
    (runOp (st, f) (Op.addSave true e)).1.passwords
        = decorate (parseOrEmpty (runOp (st, f) (Op.addSave true e)).2)
      ∧ SortedMap (parseOrEmpty (runOp (st, f) (Op.addSave true e)).2) := by
  have hr : runOp (st, f) (Op.addSave true e)
      = (st.add e,
         FileData.jsonMap (mapInsert e.service (e.username, e.password) (parseOrEmpty f))) :=
    rfl
  rw [hr]
  constructor
  · show mapInsert e.service e st.passwords = _
    rw [h1]
    exact mapInsert_decorate e.service e.username e.password (parseOrEmpty f)
  · exact sortedMap_insert _ _ h2

theorem sync_runAdds (ops : List Op) :
    ∀ (st : PasswordStore) (f : FileData),
      (∀ op ∈ ops, ∃ e, op = Op.addSave true e) →
      st.passwords = decorate (parseOrEmpty f) → SortedMap (parseOrEmpty f) →
      (runOps (st, f) ops).1.passwords = decorate (parseOrEmpty (runOps (st, f) ops).2)
        ∧ SortedMap (parseOrEmpty (runOps (st, f) ops).2) := by
  induction ops with
  | nil =>
    intro st f _ h1 h2
    exact ⟨h1, h2⟩
  | cons op t ih =>
    intro st f hops h1 h2
    obtain ⟨e, rfl⟩ := hops op (List.mem_cons_self op t)
    rw [runOps_cons]
    have hstep := sync_addSave st f e h1 h2
    exact ih (runOp (st, f) (Op.addSave true e)).1 (runOp (st, f) (Op.addSave true e)).2
      (fun op' hm => hops op' (List.mem_cons_of_mem _ hm)) hstep.1 hstep.2

/-! ## Loading a sorted JSON map -/

theorem mapInsert_append_gt {α : Type} (k : String) (v : α) :
    ∀ (l : List (String × α)), (∀ x ∈ l, x.1 < k) → mapInsert k v l = l ++ [(k, v)] := by
  intro l
  induction l with
  | nil => intro _; rfl
  | cons kv t ih =>
    intro h
    have hk : kv.1 < k := h kv (List.mem_cons_self kv t)
    rw [mapInsert_cons_gt _ _ _ _ (lt_asymm hk) (ne_of_gt hk),
      ih (fun x hx => h x (List.mem_cons_of_mem kv hx)), List.cons_append]

theorem loadFold_eq_append :
    ∀ (m : Jmap) (st : PasswordStore), SortedMap m →
      (∀ x ∈ st.passwords, ∀ y ∈ m, x.1 < y.1) →
      (m.foldl (fun acc kv => acc.add ⟨kv.1, kv.2.1, kv.2.2⟩) st).passwords
        = st.passwords ++ decorate m := by
  intro m
  induction m with
  | nil =>
    intro st _ _
    simp [decorate]
  | cons kv t ih =>
    intro st hs hgt
    rw [SortedMap, List.pairwise_cons] at hs
    have hins : (st.add ⟨kv.1, kv.2.1, kv.2.2⟩).passwords
        = st.passwords ++ [(kv.1, (⟨kv.1, kv.2.1, kv.2.2⟩ : PasswordEntry))] :=
      mapInsert_append_gt kv.1 _ st.passwords
        (fun x hx => hgt x hx kv (List.mem_cons_self kv t))
    have hgt' : ∀ x ∈ (st.add ⟨kv.1, kv.2.1, kv.2.2⟩).passwords, ∀ y ∈ t, x.1 < y.1 := by
      intro x hx y hy
      rw [hins] at hx
      rcases List.mem_append.mp hx with hx | hx
      · exact hgt x hx y (List.mem_cons_of_mem kv hy)
      · rcases List.mem_cons.mp hx with h' | h'
        · rw [h']
          exact hs.1 y hy
        · cases h'
    rw [List.foldl_cons, ih (st.add ⟨kv.1, kv.2.1, kv.2.2⟩) hs.2 hgt', hins,
      List.append_assoc]
    rfl

theorem new_jsonMap_sorted (m : Jmap) (hs : SortedMap m) :
    PasswordStore.new (some (FileData.jsonMap m))
      = Except.ok (⟨decorate m⟩, FileData.jsonMap m) := by
  have h1 : (m.foldl (fun acc kv => acc.add ⟨kv.1, kv.2.1, kv.2.2⟩) (⟨[]⟩ : PasswordStore))
      = (⟨decorate m⟩ : PasswordStore) := by
    have h2 := loadFold_eq_append m ⟨[]⟩ hs (by intro x hx; cases hx)
    rw [List.nil_append] at h2
    rw [← h2]
  rw [show PasswordStore.new (some (FileData.jsonMap m))
      = Except.ok (m.foldl (fun acc kv => acc.add ⟨kv.1, kv.2.1, kv.2.2⟩) ⟨[]⟩,
        FileData.jsonMap m) from rfl, h1]

/-! ## The file map produced by a run of successful saves -/

/-- The effect of one `save_entry`/`update_entry` on the parsed file map. -/
def insEntry (m : Jmap) (e : PasswordEntry) : Jmap :=
  mapInsert e.service (e.username, e.password) m

theorem runAdds_file :
    ∀ (entries : List PasswordEntry) (st : PasswordStore) (m : Jmap),
      (runOps (st, FileData.jsonMap m) (entries.map (Op.addSave true))).2
        = FileData.jsonMap (entries.foldl insEntry m) := by
  intro entries
  induction entries with
  | nil => intro st m; rfl
  | cons e t ih =>
    intro st m
    rw [List.map_cons, runOps_cons]
    have hstep : runOp (st, FileData.jsonMap m) (Op.addSave true e)
        = (st.add e, FileData.jsonMap (insEntry m e)) := rfl
    rw [hstep]
    exact ih (st.add e) (insEntry m e)

theorem sorted_foldl_insEntry :
    ∀ (entries : List PasswordEntry) (m : Jmap), SortedMap m →
      SortedMap (entries.foldl insEntry m) := by
  intro entries
  induction entries with
  | nil => intro m h; exact h
  | cons e t ih =>
    intro m h
    exact ih _ (sortedMap_insert _ _ h)

theorem foldl_insEntry_absent :
    ∀ (entries : List PasswordEntry) (m : Jmap) (s : String),
      (∀ e ∈ entries, e.service ≠ s) →
      mapLookup (entries.foldl insEntry m) s = mapLookup m s := by
  intro entries
  induction entries with
  | nil => intro m s _; rfl
  | cons e t ih =>
    intro m s h
    rw [List.foldl_cons, ih _ s (fun e' he' => h e' (List.mem_cons_of_mem e he'))]
    exact mapLookup_insert_ne _ _ (Ne.symm (h e (List.mem_cons_self e t)))

theorem foldl_insEntry_lookup :
    ∀ (entries : List PasswordEntry) (m : Jmap) (e : PasswordEntry),
      (entries.map (fun x => x.service)).Nodup → e ∈ entries →
      mapLookup (entries.foldl insEntry m) e.service
        = some (e.username, e.password) := by
  intro entries
  induction entries with
  | nil =>
    intro m e _ hm
    cases hm
  | cons a t ih =>
    intro m e hnd hm
    rw [List.map_cons, List.nodup_cons] at hnd
    rw [List.foldl_cons]
    rcases List.mem_cons.mp hm with rfl | hm'
    · have habs : ∀ x ∈ t, x.service ≠ e.service := by
        intro x hx h'
        exact hnd.1 (h' ▸ List.mem_map_of_mem (fun y => y.service) hx)
      rw [foldl_insEntry_absent t _ e.service habs]
      exact mapLookup_insert_self _ _ m
    · exact ih _ e hnd.2 hm'

/-! ## Substring facts about the listing output -/

theorem startsWithL_append (n post : List Char) : startsWithL (n ++ post) n = true := by
  induction n with
  | nil => cases post <;> rfl
  | cons c t ih => simp [startsWithL, ih]

theorem hasSubL_of_startsWith (l n : List Char) (h : startsWithL l n = true) :
    hasSubL n l = true := by
  cases l with
  | nil => exact h
  | cons c t => simp [hasSubL, h]

theorem hasSubL_append_right (n : List Char) :
    ∀ (pre t : List Char), hasSubL n t = true → hasSubL n (pre ++ t) = true := by
  intro pre
  induction pre with
  | nil => intro t h; exact h
  | cons c p ih =>
    intro t h
    rw [List.cons_append]
    simp [hasSubL, ih t h]

theorem hasSubL_mid (n : List Char) :
    ∀ (pre post : List Char), hasSubL n (pre ++ (n ++ post)) = true := by
  intro pre
  induction pre with
  | nil =>
    intro post
    exact hasSubL_of_startsWith _ _ (startsWithL_append n post)
  | cons c p ih =>
    intro post
    rw [List.cons_append]
    simp [hasSubL, ih post]

theorem strContains_of_decomp (x pre n post : String)
    (h : x.data = pre.data ++ (n.data ++ post.data)) : strContains x n = true := by
  rw [strContains, h]
  exact hasSubL_mid n.data pre.data post.data

theorem strContains_append_right (a b n : String) (h : strContains b n = true) :
    strContains (a ++ b) n = true := by
  rw [strContains, String.data_append]
  exact hasSubL_append_right n.data a.data b.data h

theorem list_all_eq_of_proj :
    ∀ (l1 l2 : Index),
      l1.map (fun kv => (kv.1, kv.2.username)) = l2.map (fun kv => (kv.1, kv.2.username)) →
      (PasswordStore.mk l1).list_all = (PasswordStore.mk l2).list_all := by
  intro l1
  induction l1 with
  | nil =>
    intro l2 h
    cases l2 with
    | nil => rfl
    | cons b t2 => cases h
  | cons a t ih =>
    intro l2 h
    cases l2 with
    | nil => cases h
    | cons b t2 =>
      rw [List.map_cons, List.map_cons] at h
      injection h with h1 h2
      rw [Prod.mk.injEq] at h1
      show PasswordStore.lineOf a.1 a.2.username ++ (PasswordStore.mk t).list_all
        = PasswordStore.lineOf b.1 b.2.username ++ (PasswordStore.mk t2).list_all
      rw [h1.1, h1.2, ih t2 h2]

theorem list_all_contains :
    ∀ (l : Index) (kv : String × PasswordEntry), kv ∈ l →
      strContains (PasswordStore.mk l).list_all kv.1 = true
        ∧ strContains (PasswordStore.mk l).list_all kv.2.username = true := by
  intro l
  induction l with
  | nil =>
    intro kv hm
    cases hm
  | cons a t ih =>
    intro kv hm
    have hout : (PasswordStore.mk (a :: t)).list_all
        = PasswordStore.lineOf a.1 a.2.username ++ (PasswordStore.mk t).list_all := rfl
    rcases List.mem_cons.mp hm with rfl | hm'
    · constructor
      · rw [hout]
        refine strContains_of_decomp _ "Service: " kv.1
          (", Username: " ++ kv.2.username ++ "\n" ++ (PasswordStore.mk t).list_all) ?_
        simp [PasswordStore.lineOf, String.data_append, List.append_assoc]
      · rw [hout]
        refine strContains_of_decomp _ ("Service: " ++ kv.1 ++ ", Username: ")
          kv.2.username ("\n" ++ (PasswordStore.mk t).list_all) ?_
        simp [PasswordStore.lineOf, String.data_append, List.append_assoc]
    · have := ih kv hm'
      exact ⟨by rw [hout]; exact strContains_append_right _ _ _ this.1,
        by rw [hout]; exact strContains_append_right _ _ _ this.2⟩

/-! ## Trace-level behaviour of `check_for_duplicate_service_entry` -/

theorem runOps_check_iff (ops : List Op) :
    ∀ (st : PasswordStore) (f : FileData) (s : String), KeysMatch st.passwords →
      ((runOps (st, f) ops).1.check_for_duplicate_service_entry s = true
        ↔ st.check_for_duplicate_service_entry s = true
          ∨ ∃ wf e, Op.addSave wf e ∈ ops ∧ e.service = s) := by
  induction ops with
  | nil =>
    intro st f s h
    simp [runOps]
  | cons op t ih =>
    intro st f s h
    rw [runOps_cons]
    cases op with
    | update wf e =>
      rw [runOp_update, ih st _ s h]
      constructor
      · rintro (h' | ⟨wf', e', hm, he⟩)
        · exact Or.inl h'
        · exact Or.inr ⟨wf', e', List.mem_cons_of_mem _ hm, he⟩
      · rintro (h' | ⟨wf', e', hm, he⟩)
        · exact Or.inl h'
        · rcases List.mem_cons.mp hm with heq | hm'
          · exact Op.noConfusion heq
          · exact Or.inr ⟨wf', e', hm', he⟩
    | addSave wf e =>
      rw [runOp_addSave, ih (st.add e) _ s (keysMatch_add h e), check_add_iff st e s h]
      constructor
      · rintro ((he | h') | ⟨wf', e', hm, hse⟩)
        · exact Or.inr ⟨wf, e, List.mem_cons_self _ _, he⟩
        · exact Or.inl h'
        · exact Or.inr ⟨wf', e', List.mem_cons_of_mem _ hm, hse⟩
      · rintro (h' | ⟨wf', e', hm, hse⟩)
        · exact Or.inl (Or.inr h')
        · rcases List.mem_cons.mp hm with heq | hm'
          · injection heq with h1 h2
            subst h2
            exact Or.inl (Or.inl hse)
          · exact Or.inr ⟨wf', e', hm', hse⟩

/-! ## Claim C1 -/

/-- C1 (counterexample): on a freshly opened store (nonexistent path) the
service "github" is absent from the freshly-read persisted state, yet
`update_entry` returns success — not a not-found error — and changes the
backing file by inserting the entry. -/
theorem C1_update_miss_counterexample :
    PasswordStore.new none = Except.ok (⟨[]⟩, FileData.emptyFile)
      ∧ mapLookup (parseOrEmpty FileData.emptyFile) "github" = none
      ∧ (PasswordStore.update_entry true ⟨[]⟩ FileData.emptyFile
          ⟨"github", "alice", "pw"⟩).2 = Except.ok ()
      ∧ (PasswordStore.update_entry true ⟨[]⟩ FileData.emptyFile
          ⟨"github", "alice", "pw"⟩).1.2 ≠ FileData.emptyFile := by
  refine ⟨rfl, rfl, rfl, ?_⟩
  decide

/-- C1 (amended): calling `update` with a service name absent from the
freshly-read persisted state does not fail: it returns success, writes the
entry into the backing file (upsert), and the file content changes. -/
theorem C1_update_miss_upserts (st : PasswordStore) (f : FileData) (e : PasswordEntry)
    (h : mapLookup (parseOrEmpty f) e.service = none) :
    (PasswordStore.update_entry true st f e).2 = Except.ok ()
      ∧ (PasswordStore.update_entry true st f e).1.2
          = FileData.jsonMap (mapInsert e.service (e.username, e.password) (parseOrEmpty f))
      ∧ (PasswordStore.update_entry true st f e).1.2 ≠ f := by
  refine ⟨rfl, rfl, ?_⟩
  intro hc
  have h2 : parseOrEmpty (PasswordStore.update_entry true st f e).1.2
      = mapInsert e.service (e.username, e.password) (parseOrEmpty f) := rfl
  rw [hc] at h2
  have h3 : mapLookup (parseOrEmpty f) e.service
      = mapLookup (mapInsert e.service (e.username, e.password) (parseOrEmpty f)) e.service :=
    congrArg (fun m => mapLookup m e.service) h2
  rw [mapLookup_insert_self, h] at h3
  cases h3

/-- Witness for C1's amended theorem at a concrete input. -/
theorem C1_update_miss_upserts_witness :
    mapLookup (parseOrEmpty FileData.garbage) "github" = none
      ∧ ((PasswordStore.update_entry true ⟨[]⟩ FileData.garbage
            ⟨"github", "bob", "pw2"⟩).2 = Except.ok ()
        ∧ (PasswordStore.update_entry true ⟨[]⟩ FileData.garbage
            ⟨"github", "bob", "pw2"⟩).1.2
            = FileData.jsonMap (mapInsert "github" ("bob", "pw2")
                (parseOrEmpty FileData.garbage))
        ∧ (PasswordStore.update_entry true ⟨[]⟩ FileData.garbage
            ⟨"github", "bob", "pw2"⟩).1.2 ≠ FileData.garbage) :=
  ⟨rfl, C1_update_miss_upserts ⟨[]⟩ FileData.garbage ⟨"github", "bob", "pw2"⟩ rfl⟩

/-! ## Claim C2 -/

/-- C2 (counterexample): after a successful `add_and_save_entry` of
(github, alice, p1) and a successful `update_entry` with (github, alice,
p2), `get "github"` on the same store instance still returns the OLD
entry with p1, not the p2 entry the claim promises: `update_entry` never
touches the in-memory index. -/
theorem C2_update_hit_counterexample :
    (PasswordStore.add_and_save_entry true ⟨[]⟩ FileData.emptyFile
        ⟨"github", "alice", "p1"⟩)
      = ((⟨[("github", ⟨"github", "alice", "p1"⟩)]⟩,
          FileData.jsonMap [("github", ("alice", "p1"))]),
         Except.ok "Password entry was successfully saved to file")
    ∧ (PasswordStore.update_entry true ⟨[("github", ⟨"github", "alice", "p1"⟩)]⟩
        (FileData.jsonMap [("github", ("alice", "p1"))]) ⟨"github", "alice", "p2"⟩).2
      = Except.ok ()
    ∧ (PasswordStore.update_entry true ⟨[("github", ⟨"github", "alice", "p1"⟩)]⟩
        (FileData.jsonMap [("github", ("alice", "p1"))]) ⟨"github", "alice", "p2"⟩).1.1.get
          "github"
      = some ⟨"github", "alice", "p1"⟩
    ∧ (⟨"github", "alice", "p1"⟩ : PasswordEntry) ≠ ⟨"github", "alice", "p2"⟩ := by
  refine ⟨rfl, rfl, by decide, by decide⟩

/-- C2 (amended): after a successful add of (s,u,p1) and a successful
update with (s,u,p2) on the resulting state, the backing file holds p2
under s, but `get s` on the same store instance still returns (s,u,p1);
the update leaves the whole in-memory index untouched, so every other
service's `get` result is unchanged. -/
theorem C2_update_hit_amended (st : PasswordStore) (f : FileData)
    (s u p1 p2 s2 : String) (hs2 : s2 ≠ s) :
    (PasswordStore.add_and_save_entry true st f ⟨s, u, p1⟩).2
        = Except.ok "Password entry was successfully saved to file"
      ∧ (PasswordStore.update_entry true (st.add ⟨s, u, p1⟩)
          (PasswordStore.add_and_save_entry true st f ⟨s, u, p1⟩).1.2 ⟨s, u, p2⟩).2
        = Except.ok ()
      ∧ (PasswordStore.update_entry true (st.add ⟨s, u, p1⟩)
          (PasswordStore.add_and_save_entry true st f ⟨s, u, p1⟩).1.2 ⟨s, u, p2⟩).1.1.get s
        = some ⟨s, u, p1⟩
      ∧ mapLookup (parseOrEmpty
          (PasswordStore.update_entry true (st.add ⟨s, u, p1⟩)
            (PasswordStore.add_and_save_entry true st f ⟨s, u, p1⟩).1.2 ⟨s, u, p2⟩).1.2) s
        = some (u, p2)
      ∧ (PasswordStore.update_entry true (st.add ⟨s, u, p1⟩)
          (PasswordStore.add_and_save_entry true st f ⟨s, u, p1⟩).1.2 ⟨s, u, p2⟩).1.1.get s2
        = (st.add ⟨s, u, p1⟩).get s2 := by
  refine ⟨rfl, rfl, ?_, ?_, rfl⟩
  · exact mapLookup_insert_self s (⟨s, u, p1⟩ : PasswordEntry) st.passwords
  · exact mapLookup_insert_self s (u, p2) _

/-- Witness for C2's amended theorem at concrete inputs. -/
theorem C2_update_hit_amended_witness :
    "gitlab" ≠ "github"
      ∧ ((PasswordStore.add_and_save_entry true ⟨[]⟩ FileData.emptyFile
            ⟨"github", "alice", "p1"⟩).2
          = Except.ok "Password entry was successfully saved to file"
        ∧ (PasswordStore.update_entry true
            ((⟨[]⟩ : PasswordStore).add ⟨"github", "alice", "p1"⟩)
            (PasswordStore.add_and_save_entry true ⟨[]⟩ FileData.emptyFile
              ⟨"github", "alice", "p1"⟩).1.2 ⟨"github", "alice", "p2"⟩).2
          = Except.ok ()
        ∧ (PasswordStore.update_entry true
            ((⟨[]⟩ : PasswordStore).add ⟨"github", "alice", "p1"⟩)
            (PasswordStore.add_and_save_entry true ⟨[]⟩ FileData.emptyFile
              ⟨"github", "alice", "p1"⟩).1.2 ⟨"github", "alice", "p2"⟩).1.1.get "github"
          = some ⟨"github", "alice", "p1"⟩
        ∧ mapLookup (parseOrEmpty
            (PasswordStore.update_entry true
              ((⟨[]⟩ : PasswordStore).add ⟨"github", "alice", "p1"⟩)
              (PasswordStore.add_and_save_entry true ⟨[]⟩ FileData.emptyFile
                ⟨"github", "alice", "p1"⟩).1.2 ⟨"github", "alice", "p2"⟩).1.2) "github"
          = some ("alice", "p2")
        ∧ (PasswordStore.update_entry true
            ((⟨[]⟩ : PasswordStore).add ⟨"github", "alice", "p1"⟩)
            (PasswordStore.add_and_save_entry true ⟨[]⟩ FileData.emptyFile
              ⟨"github", "alice", "p1"⟩).1.2 ⟨"github", "alice", "p2"⟩).1.1.get "gitlab"
          = ((⟨[]⟩ : PasswordStore).add ⟨"github", "alice", "p1"⟩).get "gitlab") :=
  ⟨by decide,
   C2_update_hit_amended ⟨[]⟩ FileData.emptyFile "github" "alice" "p1" "p2" "gitlab"
     (by decide)⟩

/-! ## Claim C3 -/

/-- C3 (counterexample): a successful add followed by a successful update
leaves the in-memory index (still holding p1) inconsistent with the
backing file (now holding p2), refuting the invariant for `update`. -/
theorem C3_consistency_counterexample :
    (PasswordStore.add_and_save_entry true ⟨[]⟩ FileData.emptyFile
        ⟨"github", "alice", "p1"⟩).2
      = Except.ok "Password entry was successfully saved to file"
    ∧ (PasswordStore.update_entry true ⟨[("github", ⟨"github", "alice", "p1"⟩)]⟩
        (FileData.jsonMap [("github", ("alice", "p1"))]) ⟨"github", "alice", "p2"⟩).2
      = Except.ok ()
    ∧ ¬ Consistent
        (PasswordStore.update_entry true ⟨[("github", ⟨"github", "alice", "p1"⟩)]⟩
          (FileData.jsonMap [("github", ("alice", "p1"))]) ⟨"github", "alice", "p2"⟩).1.1
        (PasswordStore.update_entry true ⟨[("github", ⟨"github", "alice", "p1"⟩)]⟩
          (FileData.jsonMap [("github", ("alice", "p1"))]) ⟨"github", "alice", "p2"⟩).1.2 := by
  refine ⟨rfl, rfl, ?_⟩
  intro hcon
  have h2 := (hcon.1 ("github", ⟨"github", "alice", "p1"⟩)
    (List.mem_cons_self _ _)).2
  have hins : mapInsert "github" ("alice", "p2") [("github", ("alice", "p1"))]
      = [("github", ("alice", "p2"))] :=
    mapInsert_cons_eq "github" ("alice", "p2") ("github", ("alice", "p1")) []
      (lt_irrefl "github") rfl
  have h3 : mapLookup (parseOrEmpty
      (PasswordStore.update_entry true ⟨[("github", ⟨"github", "alice", "p1"⟩)]⟩
        (FileData.jsonMap [("github", ("alice", "p1"))]) ⟨"github", "alice", "p2"⟩).1.2)
      "github" = some ("alice", "p2") := by
    show mapLookup (mapInsert "github" ("alice", "p2") [("github", ("alice", "p1"))])
        "github" = some ("alice", "p2")
    rw [hins]
    decide
  exact absurd (h3.symm.trans h2) (by decide)

/-- C3 (amended): the index/file consistency invariant holds after open on
a nonexistent path and after every successful `add_and_save_entry`; it is
successful `update_entry` that breaks it (the file is updated, the index
is not; counterexample above). -/
theorem C3_consistency_adds (ops : List Op)
    (hops : ∀ op ∈ ops, ∃ e, op = Op.addSave true e) :
    Consistent (runOps (⟨[]⟩, FileData.emptyFile) ops).1
      (runOps (⟨[]⟩, FileData.emptyFile) ops).2 := by
  have h := sync_runAdds ops ⟨[]⟩ FileData.emptyFile hops rfl List.Pairwise.nil
  exact consistent_of_decorate _ _ h.1 h.2

/-- Witness for C3's amended theorem on a one-add trace. -/
theorem C3_consistency_adds_witness :
    Consistent (runOps (⟨[]⟩, FileData.emptyFile)
        [Op.addSave true ⟨"email", "bob", "abc123"⟩]).1
      (runOps (⟨[]⟩, FileData.emptyFile)
        [Op.addSave true ⟨"email", "bob", "abc123"⟩]).2 :=
  C3_consistency_adds [Op.addSave true ⟨"email", "bob", "abc123"⟩]
    (by
      intro op hm
      rcases List.mem_singleton.mp hm with rfl
      exact ⟨⟨"email", "bob", "abc123"⟩, rfl⟩)

/-! ## Claim C4 -/

/-- C4: adding an entry whose service equals an already-stored key
replaces the record: a subsequent `get` returns exactly the new entry, and
the index keys stay pairwise distinct (no duplicate service names), for
either fate of the disk write. -/
theorem C4_overwrite (st : PasswordStore) (f : FileData) (e : PasswordEntry) (wf : Bool)
    (hsort : SortedMap st.passwords)
    (hdup : st.check_for_duplicate_service_entry e.service = true) :
    (PasswordStore.add_and_save_entry wf st f e).1.1.get e.service = some e
      ∧ SortedMap (PasswordStore.add_and_save_entry wf st f e).1.1.passwords
      ∧ ((PasswordStore.add_and_save_entry wf st f e).1.1.passwords.map Prod.fst).Nodup := by
  rw [add_and_save_entry_fst]
  have hsort' : SortedMap (st.add e).passwords := sortedMap_insert _ _ hsort
  exact ⟨mapLookup_insert_self _ _ _, hsort', keys_nodup_of_sorted hsort'⟩

/-- Witness for C4 at a concrete store holding "a" already. -/
theorem C4_overwrite_witness :
    SortedMap (⟨[("a", ⟨"a", "u", "p"⟩)]⟩ : PasswordStore).passwords
      ∧ (⟨[("a", ⟨"a", "u", "p"⟩)]⟩ : PasswordStore).check_for_duplicate_service_entry
          "a" = true
      ∧ ((PasswordStore.add_and_save_entry true ⟨[("a", ⟨"a", "u", "p"⟩)]⟩
            FileData.emptyFile ⟨"a", "u2", "p2"⟩).1.1.get "a" = some ⟨"a", "u2", "p2"⟩
        ∧ SortedMap (PasswordStore.add_and_save_entry true ⟨[("a", ⟨"a", "u", "p"⟩)]⟩
            FileData.emptyFile ⟨"a", "u2", "p2"⟩).1.1.passwords
        ∧ ((PasswordStore.add_and_save_entry true ⟨[("a", ⟨"a", "u", "p"⟩)]⟩
            FileData.emptyFile ⟨"a", "u2", "p2"⟩).1.1.passwords.map Prod.fst).Nodup) :=
  ⟨by decide, by decide,
   C4_overwrite ⟨[("a", ⟨"a", "u", "p"⟩)]⟩ FileData.emptyFile ⟨"a", "u2", "p2"⟩ true
     (by decide) (by decide)⟩

/-! ## Claim C5 -/

/-- C5 (counterexample): the round-trip fails already for the EMPTY
sequence of adds: open on a nonexistent path creates a zero-byte file,
and reopening that file panics, because a zero-byte file is not valid
JSON and `load` unwraps the parse error. -/
theorem C5_roundtrip_counterexample :
    PasswordStore.new none = Except.ok (⟨[]⟩, FileData.emptyFile)
      ∧ PasswordStore.new (some FileData.emptyFile)
          = Except.error
              "panic: called unwrap on an Err value while parsing the store file" :=
  ⟨rfl, rfl⟩

/-- C5 (amended): for every NONEMPTY sequence of successful
`add_and_save_entry` calls with pairwise distinct service names starting
from a store freshly opened on a nonexistent path, reopening the produced
file succeeds and `get` on the reopened store returns each added entry;
for the empty sequence the reopen panics on the zero-byte file. -/
theorem C5_roundtrip_nonempty (e0 : PasswordEntry) (rest : List PasswordEntry)
    (hnd : ((e0 :: rest).map (fun x => x.service)).Nodup) :
    ∃ str : PasswordStore,
      PasswordStore.new (some (runOps (⟨[]⟩, FileData.emptyFile)
          ((e0 :: rest).map (Op.addSave true))).2)
        = Except.ok (str, (runOps (⟨[]⟩, FileData.emptyFile)
            ((e0 :: rest).map (Op.addSave true))).2)
      ∧ ∀ e ∈ e0 :: rest, str.get e.service = some e := by
  have hfile : (runOps (⟨[]⟩, FileData.emptyFile) ((e0 :: rest).map (Op.addSave true))).2
      = FileData.jsonMap ((e0 :: rest).foldl insEntry []) := by
    rw [List.map_cons, runOps_cons]
    have hstep : runOp (⟨[]⟩, FileData.emptyFile) (Op.addSave true e0)
        = ((⟨[]⟩ : PasswordStore).add e0, FileData.jsonMap (insEntry [] e0)) := rfl
    rw [hstep, runAdds_file rest _ (insEntry [] e0)]
    rfl
  have hsort : SortedMap ((e0 :: rest).foldl insEntry []) :=
    sorted_foldl_insEntry _ [] List.Pairwise.nil
  rw [hfile, new_jsonMap_sorted _ hsort]
  refine ⟨⟨decorate ((e0 :: rest).foldl insEntry [])⟩, rfl, ?_⟩
  intro e he
  show mapLookup (decorate ((e0 :: rest).foldl insEntry [])) e.service = some e
  rw [mapLookup_decorate, foldl_insEntry_lookup (e0 :: rest) [] e hnd he]
  rfl

/-- Witness for C5's amended theorem on a two-add trace. -/
theorem C5_roundtrip_nonempty_witness :
    (((⟨"email", "bob", "abc123"⟩ : PasswordEntry) :: [⟨"github", "alice", "p1"⟩]).map
        (fun x => x.service)).Nodup
      ∧ ∃ str : PasswordStore,
          PasswordStore.new (some (runOps (⟨[]⟩, FileData.emptyFile)
              (((⟨"email", "bob", "abc123"⟩ : PasswordEntry)
                :: [⟨"github", "alice", "p1"⟩]).map (Op.addSave true))).2)
            = Except.ok (str, (runOps (⟨[]⟩, FileData.emptyFile)
                (((⟨"email", "bob", "abc123"⟩ : PasswordEntry)
                  :: [⟨"github", "alice", "p1"⟩]).map (Op.addSave true))).2)
          ∧ ∀ e ∈ (⟨"email", "bob", "abc123"⟩ : PasswordEntry)
              :: [⟨"github", "alice", "p1"⟩], str.get e.service = some e :=
  ⟨by decide,
   C5_roundtrip_nonempty ⟨"email", "bob", "abc123"⟩ [⟨"github", "alice", "p1"⟩]
     (by decide)⟩

/-! ## Claim C6 -/

/-- C6: `exists(s)` (the duplicate check) is true exactly when the store
was opened with an entry for `s` or some prior `add_and_save_entry` on
this instance used service `s`; and it is monotone: once true it stays
true across any further operations. -/
theorem C6_exists_monotone (f0 : Option FileData) (st0 : PasswordStore) (fd : FileData)
    (ops more : List Op) (s : String)
    (hnew : PasswordStore.new f0 = Except.ok (st0, fd)) :
    ((runOps (st0, fd) ops).1.check_for_duplicate_service_entry s = true
      ↔ st0.check_for_duplicate_service_entry s = true
        ∨ ∃ wf e, Op.addSave wf e ∈ ops ∧ e.service = s)
    ∧ ((runOps (st0, fd) ops).1.check_for_duplicate_service_entry s = true →
        (runOps (runOps (st0, fd) ops) more).1.check_for_duplicate_service_entry s
          = true) := by
  have hkm : KeysMatch st0.passwords := new_ok_keysMatch hnew
  refine ⟨runOps_check_iff ops st0 fd s hkm, ?_⟩
  intro h2
  exact (runOps_check_iff more (runOps (st0, fd) ops).1 (runOps (st0, fd) ops).2 s
    (keysMatch_runOps ops _ hkm)).mpr (Or.inl h2)

/-- Witness for C6 on a concrete one-add trace. -/
theorem C6_exists_monotone_witness :
    PasswordStore.new none = Except.ok (⟨[]⟩, FileData.emptyFile)
      ∧ (((runOps ((⟨[]⟩ : PasswordStore), FileData.emptyFile)
            [Op.addSave true ⟨"email", "bob", "abc123"⟩]).1.check_for_duplicate_service_entry
            "email" = true
          ↔ (⟨[]⟩ : PasswordStore).check_for_duplicate_service_entry "email" = true
            ∨ ∃ wf e, Op.addSave wf e ∈ [Op.addSave true ⟨"email", "bob", "abc123"⟩]
                ∧ e.service = "email")
        ∧ ((runOps ((⟨[]⟩ : PasswordStore), FileData.emptyFile)
              [Op.addSave true ⟨"email", "bob", "abc123"⟩]).1.check_for_duplicate_service_entry
              "email" = true →
            (runOps (runOps ((⟨[]⟩ : PasswordStore), FileData.emptyFile)
                [Op.addSave true ⟨"email", "bob", "abc123"⟩])
              [Op.update true ⟨"email", "bob", "xyz999"⟩]).1.check_for_duplicate_service_entry
              "email" = true)) :=
  ⟨rfl,
   C6_exists_monotone none ⟨[]⟩ FileData.emptyFile
     [Op.addSave true ⟨"email", "bob", "abc123"⟩]
     [Op.update true ⟨"email", "bob", "xyz999"⟩] "email" rfl⟩

/-! ## Claim C7 -/

/-- C7: when `add_and_save_entry` fails with a persistence error, the
in-memory index is NOT rolled back: the entry is still present under its
service key after the failed call. -/
theorem C7_no_rollback (st : PasswordStore) (f : FileData) (e : PasswordEntry)
    (wf : Bool) (err : String)
    (h : (PasswordStore.add_and_save_entry wf st f e).2 = Except.error err) :
    (PasswordStore.add_and_save_entry wf st f e).1.1.get e.service = some e := by
  rw [add_and_save_entry_fst]
  exact mapLookup_insert_self _ _ _

/-- Witness for C7: a failed write (writeOk = false) reports the Rust
error string and the entry is still found in the index. -/
theorem C7_no_rollback_witness :
    (PasswordStore.add_and_save_entry false ⟨[]⟩ FileData.emptyFile
        ⟨"email", "bob", "abc123"⟩).2 = Except.error "Failed to save entry to file"
      ∧ (PasswordStore.add_and_save_entry false ⟨[]⟩ FileData.emptyFile
          ⟨"email", "bob", "abc123"⟩).1.1.get "email"
        = some ⟨"email", "bob", "abc123"⟩ :=
  ⟨rfl,
   C7_no_rollback ⟨[]⟩ FileData.emptyFile ⟨"email", "bob", "abc123"⟩ false
     "Failed to save entry to file" rfl⟩

/-! ## Claim C8 -/

/-- C8 (counterexample): a stored password CAN occur in the `list_all`
output as a substring — it suffices that it coincides with a username.
Here the entry (svc, alice, alice) has password "alice", and the output
"Service: svc, Username: alice\n" contains it. -/
theorem C8_listing_counterexample :
    (⟨[("svc", ⟨"svc", "alice", "alice"⟩)]⟩ : PasswordStore).get "svc"
        = some ⟨"svc", "alice", "alice"⟩
      ∧ strContains
          (⟨[("svc", ⟨"svc", "alice", "alice"⟩)]⟩ : PasswordStore).list_all "alice"
        = true := by
  refine ⟨by decide, by decide⟩

/-- C8 (amended): `list_all` output contains the service name and username
of every entry, and it is a function of the (service, username)
projections alone: two stores whose indices differ only in password
fields produce identical output.  (A password value can therefore appear
in the output only by coinciding with text built from services,
usernames and the fixed labels.) -/
theorem C8_listing_amended (st st2 : PasswordStore)
    (h : st.passwords.map (fun kv => (kv.1, kv.2.username))
        = st2.passwords.map (fun kv => (kv.1, kv.2.username))) :
    st.list_all = st2.list_all
      ∧ ∀ kv ∈ st.passwords,
          strContains st.list_all kv.1 = true
            ∧ strContains st.list_all kv.2.username = true := by
  refine ⟨list_all_eq_of_proj st.passwords st2.passwords h, ?_⟩
  intro kv hm
  exact list_all_contains st.passwords kv hm

/-- Witness for C8's amended theorem: two stores differing only in the
password of "a". -/
theorem C8_listing_amended_witness :
    ((⟨[("a", ⟨"a", "u", "p1"⟩)]⟩ : PasswordStore).passwords.map
        (fun kv => (kv.1, kv.2.username))
      = (⟨[("a", ⟨"a", "u", "p2"⟩)]⟩ : PasswordStore).passwords.map
          (fun kv => (kv.1, kv.2.username)))
    ∧ ((⟨[("a", ⟨"a", "u", "p1"⟩)]⟩ : PasswordStore).list_all
          = (⟨[("a", ⟨"a", "u", "p2"⟩)]⟩ : PasswordStore).list_all
        ∧ ∀ kv ∈ (⟨[("a", ⟨"a", "u", "p1"⟩)]⟩ : PasswordStore).passwords,
            strContains (⟨[("a", ⟨"a", "u", "p1"⟩)]⟩ : PasswordStore).list_all kv.1 = true
              ∧ strContains (⟨[("a", ⟨"a", "u", "p1"⟩)]⟩ : PasswordStore).list_all
                  kv.2.username = true) :=
  ⟨by decide,
   C8_listing_amended ⟨[("a", ⟨"a", "u", "p1"⟩)]⟩ ⟨[("a", ⟨"a", "u", "p2"⟩)]⟩
     (by decide)⟩

/-! ## Claim C9 -/

/-- C9 (counterexample): opening a path whose file exists but cannot be
parsed does NOT return a usable empty store: the Rust code unwraps the
parse error and panics. -/
theorem C9_malformed_counterexample :
    parseFile FileData.garbage = none
      ∧ PasswordStore.new (some FileData.garbage)
          = Except.error
              "panic: called unwrap on an Err value while parsing the store file" :=
  ⟨rfl, rfl⟩

/-- C9 (amended): for every existing file whose content does not parse
(including an empty file), `new` panics in `load` instead of returning a
store. -/
theorem C9_malformed_panics (f : FileData) (h : parseFile f = none) :
    PasswordStore.new (some f)
      = Except.error
          "panic: called unwrap on an Err value while parsing the store file" := by
  rw [PasswordStore.new, PasswordStore.load, h]
  rfl

/-- Witness for C9's amended theorem at the empty-file input. -/
theorem C9_malformed_panics_witness :
    parseFile FileData.emptyFile = none
      ∧ PasswordStore.new (some FileData.emptyFile)
          = Except.error
              "panic: called unwrap on an Err value while parsing the store file" :=
  ⟨rfl, C9_malformed_panics FileData.emptyFile rfl⟩

/-! ## Claim C10 -/

/-- C10: on every store reachable from `new` by any operation sequence,
the key-equals-service-field invariant holds and the duplicate check
(`exists`) returns true exactly when `get` finds an entry, even though
one scans service fields and the other does a key lookup. -/
theorem C10_exists_iff_get (f0 : Option FileData) (st0 : PasswordStore) (fd : FileData)
    (ops : List Op) (s : String)
    (hnew : PasswordStore.new f0 = Except.ok (st0, fd)) :
    KeysMatch (runOps (st0, fd) ops).1.passwords
      ∧ ((runOps (st0, fd) ops).1.check_for_duplicate_service_entry s = true
        ↔ ((runOps (st0, fd) ops).1.get s).isSome = true) := by
  have hkm : KeysMatch (runOps (st0, fd) ops).1.passwords :=
    keysMatch_runOps ops _ (new_ok_keysMatch hnew)
  exact ⟨hkm, check_iff_lookup _ s hkm⟩

/-- Witness for C10 on a store loaded from a one-entry file and extended
by one add. -/
theorem C10_exists_iff_get_witness :
    PasswordStore.new (some (FileData.jsonMap [("email", ("bob", "abc123"))]))
        = Except.ok (⟨[("email", ⟨"email", "bob", "abc123"⟩)]⟩,
            FileData.jsonMap [("email", ("bob", "abc123"))])
      ∧ (KeysMatch (runOps (⟨[("email", ⟨"email", "bob", "abc123"⟩)]⟩,
            FileData.jsonMap [("email", ("bob", "abc123"))])
            [Op.addSave true ⟨"github", "alice", "p1"⟩]).1.passwords
        ∧ ((runOps (⟨[("email", ⟨"email", "bob", "abc123"⟩)]⟩,
              FileData.jsonMap [("email", ("bob", "abc123"))])
              [Op.addSave true ⟨"github", "alice", "p1"⟩]).1.check_for_duplicate_service_entry
              "github" = true
            ↔ ((runOps (⟨[("email", ⟨"email", "bob", "abc123"⟩)]⟩,
                FileData.jsonMap [("email", ("bob", "abc123"))])
                [Op.addSave true ⟨"github", "alice", "p1"⟩]).1.get "github").isSome
              = true)) :=
  ⟨rfl,
   C10_exists_iff_get (some (FileData.jsonMap [("email", ("bob", "abc123"))]))
     ⟨[("email", ⟨"email", "bob", "abc123"⟩)]⟩
     (FileData.jsonMap [("email", ("bob", "abc123"))])
     [Op.addSave true ⟨"github", "alice", "p1"⟩] "github" rfl⟩
